import Mathlib

/-!
Shallow embedding of the address-space management code of the repository
(src/userprog/addrspace.cc): the page-table data model, the two AddrSpace
constructors (from an executable image and from a parent, i.e. fork), the
address translator AddrSpace::Translate and AddrSpace::InitRegisters.
Machine integers are modelled as Nat (the source values in play are the
unsigned views); physical memory and the register file are modelled as
total functions; the global frame counter and memory are threaded through
an explicit machine state.  Constructors return none exactly when one of
the ASSERT statements of the source fails (a fatal kernel halt).
-/

set_option linter.unusedVariables false

namespace Nachos

/-- Exception outcomes of address translation (the kinds addrspace.cc uses). -/
inductive ExceptionType where
  | NoException
  | PageFaultException
  | BusErrorException
  | AddressErrorException
deriving DecidableEq

/-- One page-table entry: virtual page, physical frame, and the four flag bits
(valid, use, dirty, readOnly), as in the TranslationEntry record the source
populates field by field. -/
structure TranslationEntry where
  virtualPage : Nat
  physicalPage : Nat
  valid : Bool
  use : Bool
  dirty : Bool
  readOnly : Bool
deriving DecidableEq

/-- Machine state the translated code touches: the global frame counter
totalPagesCount (addrspace.cc line 29) and the bytes of physical memory. -/
structure MachineState where
  totalPagesCount : Nat
  mainMemory : Nat → Nat

/-- An address space: its page count and its page table.  The table is kept as
a total function on entry indices; only indices below numPages correspond to
the allocated array of the source. -/
structure AddrSpace where
  numPages : Nat
  pageTable : Nat → TranslationEntry

/-- Result of AddrSpace::Translate: the exception outcome, the physical
address written through the physAddr out-parameter when translation succeeds
(none on the fault paths, where the source leaves the out-parameter alone),
and the member page table after the call, carrying the use-bit side effect. -/
structure TranslateResult where
  exc : ExceptionType
  physAddr : Option Nat
  table : Nat → TranslationEntry

/-- AddrSpace::Translate (addrspace.cc lines 292-336).  The body of the source
indexes pageTable[vpn] — the member table — while the pgTable parameter is
received but never read; the embedding keeps both so that this fact is
visible.  virtAddr is the 32-bit word viewed unsigned, so the alignment test
virtAddr & 0x3 is virtAddr % 4, and vpn and offset are the unsigned division
and remainder by PageSize. -/
def Translate (PageSize NumPhysPages : Nat) (pageTable : Nat → TranslationEntry)
    (virtAddr : Nat) (pgTable : Nat → TranslationEntry) (pgSize : Nat) :
    TranslateResult :=
  if virtAddr % 4 ≠ 0 then
    { exc := .AddressErrorException, physAddr := none, table := pageTable }
  else
    let vpn := virtAddr / PageSize
    let offset := virtAddr % PageSize
    if vpn ≥ pgSize then
      { exc := .AddressErrorException, physAddr := none, table := pageTable }
    else if ¬ (pageTable vpn).valid then
      { exc := .PageFaultException, physAddr := none, table := pageTable }
    else
      let pageFrame := (pageTable vpn).physicalPage
      if pageFrame ≥ NumPhysPages then
        { exc := .BusErrorException, physAddr := none, table := pageTable }
      else
        { exc := .NoException,
          physAddr := some (pageFrame * PageSize + offset),
          table := Function.update pageTable vpn
            { pageTable vpn with use := true } }

/-- The page-table population loop shared by both constructors (addrspace.cc
lines 94-103 and 170-179): entry i gets virtual page i, physical frame i + c
where c is the global counter at construction, valid set, the other bits
clear.  Indices at or beyond numPages lie outside the allocated array of the
source; the function extends them with a blank invalid entry and no theorem
below depends on that extension. -/
def mkPageTable (c numPages : Nat) : Nat → TranslationEntry :=
  fun i =>
    if i < numPages then
      { virtualPage := i, physicalPage := i + c, valid := true,
        use := false, dirty := false, readOnly := false }
    else
      { virtualPage := 0, physicalPage := 0, valid := false,
        use := false, dirty := false, readOnly := false }

/-- The bzero call of the image constructor: clear bytes [0, n) of memory,
leave the rest. -/
def bzero (mem : Nat → Nat) (n : Nat) : Nat → Nat :=
  fun a => if a < n then 0 else mem a

/-- OpenFile::ReadAt into main memory as the constructor uses it: bytes
[pos, pos + numBytes) of memory receive the file bytes starting at
fileOffset; every other byte is untouched. -/
def readAt (mem file : Nat → Nat) (pos numBytes fileOffset : Nat) :
    Nat → Nat :=
  fun a => if pos ≤ a ∧ a < pos + numBytes then file (fileOffset + (a - pos))
    else mem a

/-- One NOFF segment descriptor: size, virtual address, file offset. -/
structure Segment where
  size : Nat
  virtualAddr : Nat
  inFileAddr : Nat

/-- The NOFF header: magic number plus the code, initialized-data and
uninitialized-data segment descriptors. -/
structure NoffHeader where
  noffMagic : Nat
  code : Segment
  initData : Segment
  uninitData : Segment

/-- Modelled from the spec: the NOFF magic constant the loader validates
(defined in the noff header of the repository, which is not under src).  Its
numeric value never matters below, only equality with itself. -/
def NOFFMAGIC : Nat := 0xbadfad

/-- Modelled from the spec: division rounded up (the divRoundUp helper of the
repository utility header, which is not under src) — the spec states the page
count is the total size divided by page size, rounded up. -/
def divRoundUp (n s : Nat) : Nat :=
  n / s + (if n % s > 0 then 1 else 0)

/-- One copy-in block of the image constructor (addrspace.cc lines 128-135
and 136-143, the two blocks being textually identical up to the segment):
when the segment has nonzero size, translate its virtual address through the
freshly built page table and read the segment bytes from the file into
memory at the translated address.  The state is a pair of memory and the
member page table (Translate leaves its use-bit side effect there).  When
translation faults the source would read through an indeterminate
out-parameter; no claim exercises that path and the model skips the read
while keeping the table the fault left behind. -/
def copySegment (PageSize NumPhysPages : Nat) (file : Nat → Nat)
    (seg : Segment) (m : (Nat → Nat) × (Nat → TranslationEntry))
    (numPages : Nat) : (Nat → Nat) × (Nat → TranslationEntry) :=
  if 0 < seg.size then
    let r := Translate PageSize NumPhysPages m.2 seg.virtualAddr m.2 numPages
    match r.physAddr with
    | some pa => (readAt m.1 file pa seg.size seg.inFileAddr, r.table)
    | none => (m.1, r.table)
  else m

/-- AddrSpace::AddrSpace(OpenFile*) (addrspace.cc lines 68-144), starting from
the header as read and byte-order-normalized (SwapHeader; no claim concerns
byte order, so the header argument is the normalized one).  Returns none when
one of the ASSERT statements fails: bad magic, numPages past NumPhysPages, or
the incremented frame counter past NumPhysPages.  Otherwise it returns the
constructed space and the machine state after the zero-fill of bytes
[0, (c + numPages) * PageSize) — the length the source computes as
totalPagesCount * PageSize after the increment, applied from address 0 —
and the code and initialized-data copy-ins. -/
def fromImage (PageSize NumPhysPages UserStackSize : Nat) (noffH : NoffHeader)
    (file : Nat → Nat) (st : MachineState) :
    Option (AddrSpace × MachineState) :=
  if noffH.noffMagic = NOFFMAGIC then
    let size := noffH.code.size + noffH.initData.size + noffH.uninitData.size
      + UserStackSize
    let numPages := divRoundUp size PageSize
    if numPages ≤ NumPhysPages then
      let c := st.totalPagesCount
      let table0 := mkPageTable c numPages
      if c + numPages ≤ NumPhysPages then
        let mem0 := bzero st.mainMemory ((c + numPages) * PageSize)
        let s1 := copySegment PageSize NumPhysPages file noffH.code
          (mem0, table0) numPages
        let s2 := copySegment PageSize NumPhysPages file noffH.initData
          s1 numPages
        some ({ numPages := numPages, pageTable := s2.2 },
              { totalPagesCount := c + numPages, mainMemory := s2.1 })
      else none
    else none
  else none

/-- The byte-by-byte copy loop of the fork constructor (addrspace.cc lines
194-196): cnt iterations of mainMemory[dst] = mainMemory[src] with both
indices advancing by one each step. -/
def copyBytes (mem : Nat → Nat) (src dst cnt : Nat) : Nat → Nat :=
  match cnt with
  | 0 => mem
  | Nat.succ n => copyBytes (Function.update mem dst (mem src)) (src + 1)
      (dst + 1) n

/-- AddrSpace::AddrSpace(unsigned int, unsigned int) — the fork constructor
(addrspace.cc lines 153-197): the same page-table population on freshly
counted frames, the counter increment, then the copy loop running from byte
parentStartPhysPage * PageSize up to the bound exactly as the source computes
it, parentStartPhysPage + numPages * PageSize, into the range starting at the
pre-increment counter times PageSize.  none when an ASSERT fails. -/
def fromParent (PageSize NumPhysPages : Nat)
    (numParentPages parentStartPhysPage : Nat) (st : MachineState) :
    Option (AddrSpace × MachineState) :=
  let numPages := numParentPages
  let k := st.totalPagesCount * PageSize
  if numPages ≤ NumPhysPages then
    let c := st.totalPagesCount
    let table0 := mkPageTable c numPages
    if c + numPages ≤ NumPhysPages then
      let parentPhysEnd := parentStartPhysPage + numPages * PageSize
      let start := parentStartPhysPage * PageSize
      let mem := copyBytes st.mainMemory start k (parentPhysEnd - start)
      some ({ numPages := numPages, pageTable := table0 },
            { totalPagesCount := c + numPages, mainMemory := mem })
    else none
  else none

/-- AddrSpace::InitRegisters (addrspace.cc lines 218-238): write 0 to every
register index below NumTotalRegs, then PCReg gets 0, NextPCReg gets 4 and
StackReg gets numPages * PageSize - 16 as a signed register value.  The
register indices stay parameters: the machine header fixing their values is
not part of the translated source. -/
def InitRegisters (PageSize NumTotalRegs PCReg NextPCReg StackReg : Nat)
    (numPages : Nat) (regs : Nat → Int) : Nat → Int :=
  let z : Nat → Int := fun r => if r < NumTotalRegs then 0 else regs r
  let z1 := Function.update z PCReg 0
  let z2 := Function.update z1 NextPCReg 4
  Function.update z2 StackReg ((numPages : Int) * (PageSize : Int) - 16)

/-- Fields other than the use bit agree: f is e with at most the use bit
changed. -/
def sameButUse (e f : TranslationEntry) : Prop :=
  f.virtualPage = e.virtualPage ∧ f.physicalPage = e.physicalPage ∧
  f.valid = e.valid ∧ f.dirty = e.dirty ∧ f.readOnly = e.readOnly

lemma sameButUse_refl (e : TranslationEntry) : sameButUse e e :=
  ⟨rfl, rfl, rfl, rfl, rfl⟩

lemma sameButUse_trans {e f g : TranslationEntry}
    (h1 : sameButUse e f) (h2 : sameButUse f g) : sameButUse e g := by
  obtain ⟨a1, b1, c1, d1, e1⟩ := h1
  obtain ⟨a2, b2, c2, d2, e2⟩ := h2
  exact ⟨a2.trans a1, b2.trans b1, c2.trans c1, d2.trans d1, e2.trans e1⟩

lemma translate_table_sameButUse (PageSize NumPhysPages : Nat)
    (tbl pg : Nat → TranslationEntry) (virtAddr pgSize i : Nat) :
    sameButUse (tbl i)
      ((Translate PageSize NumPhysPages tbl virtAddr pg pgSize).table i) := by
  simp only [Translate]
  split_ifs <;> try exact sameButUse_refl _
  by_cases hi : i = virtAddr / PageSize
  · subst hi
    simp [Function.update_same, sameButUse]
  · simp [Function.update_noteq hi, sameButUse_refl]

lemma copySegment_table_sameButUse (PageSize NumPhysPages : Nat)
    (file : Nat → Nat) (seg : Segment)
    (m : (Nat → Nat) × (Nat → TranslationEntry)) (numPages i : Nat) :
    sameButUse (m.2 i)
      ((copySegment PageSize NumPhysPages file seg m numPages).2 i) := by
  unfold copySegment
  split_ifs with h
  · cases hr : (Translate PageSize NumPhysPages m.2 seg.virtualAddr m.2
        numPages).physAddr <;>
      simp only [hr] <;>
      exact translate_table_sameButUse PageSize NumPhysPages m.2 m.2
        seg.virtualAddr numPages i
  · exact sameButUse_refl _

/-- C4: Translate discriminates faults in a fixed order with first match
winning: misaligned word address gives AddressError regardless of the rest;
then vpn at or past the exclusive bound pgSize gives AddressError; then an
invalid entry gives PageFault; then a physical page at or past NumPhysPages
gives BusError; otherwise the use bit of the consulted entry is set true, the
physical address physicalPage * PageSize + virtAddr mod PageSize is produced
and the outcome is NoException. -/
theorem C4_translate_fault_order (PageSize NumPhysPages : Nat)
    (tbl pg : Nat → TranslationEntry) (virtAddr pgSize : Nat) :
    (virtAddr % 4 ≠ 0 →
      Translate PageSize NumPhysPages tbl virtAddr pg pgSize =
        ⟨.AddressErrorException, none, tbl⟩) ∧
    (virtAddr % 4 = 0 → pgSize ≤ virtAddr / PageSize →
      Translate PageSize NumPhysPages tbl virtAddr pg pgSize =
        ⟨.AddressErrorException, none, tbl⟩) ∧
    (virtAddr % 4 = 0 → virtAddr / PageSize < pgSize →
      (tbl (virtAddr / PageSize)).valid = false →
      Translate PageSize NumPhysPages tbl virtAddr pg pgSize =
        ⟨.PageFaultException, none, tbl⟩) ∧
    (virtAddr % 4 = 0 → virtAddr / PageSize < pgSize →
      (tbl (virtAddr / PageSize)).valid = true →
      NumPhysPages ≤ (tbl (virtAddr / PageSize)).physicalPage →
      Translate PageSize NumPhysPages tbl virtAddr pg pgSize =
        ⟨.BusErrorException, none, tbl⟩) ∧
    (virtAddr % 4 = 0 → virtAddr / PageSize < pgSize →
      (tbl (virtAddr / PageSize)).valid = true →
      (tbl (virtAddr / PageSize)).physicalPage < NumPhysPages →
      Translate PageSize NumPhysPages tbl virtAddr pg pgSize =
        ⟨.NoException,
         some ((tbl (virtAddr / PageSize)).physicalPage * PageSize
           + virtAddr % PageSize),
         Function.update tbl (virtAddr / PageSize)
           { tbl (virtAddr / PageSize) with use := true }⟩) := by
  refine ⟨fun h1 => ?_, fun h1 h2 => ?_, fun h1 h2 h3 => ?_,
    fun h1 h2 h3 h4 => ?_, fun h1 h2 h3 h4 => ?_⟩
  · simp [Translate, h1]
  · simp [Translate, h1, ge_iff_le, h2]
  · simp [Translate, h1, ge_iff_le, Nat.not_le.mpr h2, h3]
  · simp [Translate, h1, ge_iff_le, Nat.not_le.mpr h2, h3, h4]
  · simp [Translate, h1, ge_iff_le, Nat.not_le.mpr h2, h3, Nat.not_le.mpr h4]

/-- C4 witness: a concrete aligned, in-bounds, valid, in-frame translation
takes the NoException branch with the stated physical address and use-bit
update. -/
theorem C4_translate_fault_order_witness :
    Translate 128 32 (fun i => ⟨i, 1, true, false, false, false⟩) 4
        (fun i => ⟨i, 1, true, false, false, false⟩) 1 =
      ⟨.NoException,
       some (((fun i : Nat => (⟨i, 1, true, false, false, false⟩ :
           TranslationEntry)) (4 / 128)).physicalPage * 128 + 4 % 128),
       Function.update (fun i => ⟨i, 1, true, false, false, false⟩) (4 / 128)
         { (fun i : Nat => (⟨i, 1, true, false, false, false⟩ :
             TranslationEntry)) (4 / 128) with use := true }⟩ :=
  (C4_translate_fault_order 128 32 (fun i => ⟨i, 1, true, false, false, false⟩)
    (fun i => ⟨i, 1, true, false, false, false⟩) 4 1).2.2.2.2
    (by decide) (by decide) rfl (by decide)

/-- C7: the only page-table change Translate ever makes is setting the use
bit of the consulted entry to true, and only on the NoException path; on
every fault path the table comes back untouched. -/
theorem C7_translate_table_effect (PageSize NumPhysPages : Nat)
    (tbl pg : Nat → TranslationEntry) (virtAddr pgSize : Nat) :
    (Translate PageSize NumPhysPages tbl virtAddr pg pgSize).table =
      if (Translate PageSize NumPhysPages tbl virtAddr pg pgSize).exc
          = .NoException then
        Function.update tbl (virtAddr / PageSize)
          { tbl (virtAddr / PageSize) with use := true }
      else tbl := by
  simp only [Translate]
  split_ifs <;> simp_all

/-- C8: Translate is idempotent in outcome and numeric result: running it
again on the table the first call left behind yields the same exception and
the same physical address; the use-bit side effect does not change the
result. -/
theorem C8_translate_idempotent (PageSize NumPhysPages : Nat)
    (tbl pg : Nat → TranslationEntry) (virtAddr pgSize : Nat) :
    (Translate PageSize NumPhysPages
        (Translate PageSize NumPhysPages tbl virtAddr pg pgSize).table
        virtAddr pg pgSize).exc
      = (Translate PageSize NumPhysPages tbl virtAddr pg pgSize).exc ∧
    (Translate PageSize NumPhysPages
        (Translate PageSize NumPhysPages tbl virtAddr pg pgSize).table
        virtAddr pg pgSize).physAddr
      = (Translate PageSize NumPhysPages tbl virtAddr pg pgSize).physAddr := by
  by_cases h1 : virtAddr % 4 = 0
  · by_cases h2 : pgSize ≤ virtAddr / PageSize
    · simp [Translate, h1, h2]
    · by_cases h3 : (tbl (virtAddr / PageSize)).valid = true
      · by_cases h4 : NumPhysPages ≤ (tbl (virtAddr / PageSize)).physicalPage
        · simp [Translate, h1, h2, h3, h4]
        · simp [Translate, h1, h2, h3, h4, Function.update_same]
      · simp [Translate, h1, h2, h3]
  · simp [Translate, h1]

/-- C3 fails on the code: Translate indexes the member page table, not the
pgTable argument — with the member entry invalid and the passed entry valid
the call page-faults, and swapping the two tables flips the outcome even
though the pgTable argument it received is then the invalid one. -/
theorem C3_translate_reads_member_table :
    (Translate 128 32 (fun i => ⟨i, 0, false, false, false, false⟩) 0
        (fun i => ⟨i, 0, true, false, false, false⟩) 1).exc
      = .PageFaultException ∧
    (Translate 128 32 (fun i => ⟨i, 0, true, false, false, false⟩) 0
        (fun i => ⟨i, 0, false, false, false, false⟩) 1).exc
      = .NoException :=
  ⟨rfl, rfl⟩

/-- C10: whenever Translate succeeds the asserted bound holds — with PageSize
a positive multiple of 4 and MemorySize equal to NumPhysPages * PageSize, the
produced physical address pa satisfies pa + 4 ≤ MemorySize (pa is a Nat, so
0 ≤ pa holds by construction). -/
theorem C10_translate_assert_safe (PageSize NumPhysPages MemorySize : Nat)
    (tbl pg : Nat → TranslationEntry) (virtAddr pgSize pa : Nat)
    (hPS : 0 < PageSize) (h4 : 4 ∣ PageSize)
    (hMem : MemorySize = NumPhysPages * PageSize)
    (h : (Translate PageSize NumPhysPages tbl virtAddr pg pgSize).physAddr
      = some pa) :
    pa + 4 ≤ MemorySize := by
  subst hMem
  simp only [Translate] at h
  split_ifs at h with h1 h2 h3 h5
  simp at h
  have hpa : (tbl (virtAddr / PageSize)).physicalPage * PageSize
      + virtAddr % PageSize = pa := h
  have halign : virtAddr % 4 = 0 := by
    by_contra hc
    exact h1 hc
  have hvdvd : 4 ∣ virtAddr := Nat.dvd_of_mod_eq_zero halign
  have hodvd : 4 ∣ virtAddr % PageSize := (Nat.dvd_mod_iff h4).mpr hvdvd
  have holt : virtAddr % PageSize < PageSize := Nat.mod_lt _ hPS
  obtain ⟨a, ha⟩ := hodvd
  obtain ⟨b, hb⟩ := h4
  have hoff : virtAddr % PageSize + 4 ≤ PageSize := by omega
  have hframe : (tbl (virtAddr / PageSize)).physicalPage + 1
      ≤ NumPhysPages := by
    simp only [ge_iff_le, not_le] at h5
    omega
  calc pa + 4
      = (tbl (virtAddr / PageSize)).physicalPage * PageSize
        + (virtAddr % PageSize + 4) := by omega
    _ ≤ (tbl (virtAddr / PageSize)).physicalPage * PageSize + PageSize := by
        omega
    _ = ((tbl (virtAddr / PageSize)).physicalPage + 1) * PageSize := by ring
    _ ≤ NumPhysPages * PageSize := Nat.mul_le_mul hframe le_rfl

/-- C10 witness: the concrete translation of virtual address 4 through a
one-entry table mapped to frame 1, with PageSize 128 and 32 physical frames,
produces 132 and 132 + 4 lies within 32 * 128 = 4096 bytes of memory. -/
theorem C10_translate_assert_safe_witness : (132 : Nat) + 4 ≤ 4096 :=
  C10_translate_assert_safe 128 32 4096
    (fun i => ⟨i, 1, true, false, false, false⟩)
    (fun i => ⟨i, 1, true, false, false, false⟩) 4 1 132
    (by decide) (by decide) (by decide) rfl

lemma fromImage_elim {PageSize NumPhysPages UserStackSize : Nat}
    {noffH : NoffHeader} {file : Nat → Nat} {st st2 : MachineState}
    {sp : AddrSpace}
    (h : fromImage PageSize NumPhysPages UserStackSize noffH file st
      = some (sp, st2)) :
    sp.numPages = divRoundUp (noffH.code.size + noffH.initData.size
        + noffH.uninitData.size + UserStackSize) PageSize ∧
    st.totalPagesCount + sp.numPages ≤ NumPhysPages ∧
    st2.totalPagesCount = st.totalPagesCount + sp.numPages ∧
    (∀ i, sameButUse (mkPageTable st.totalPagesCount sp.numPages i)
      (sp.pageTable i)) := by
  simp only [fromImage] at h
  split_ifs at h with hmag hnp hc
  simp only [Option.some_inj, Prod.mk.injEq] at h
  obtain ⟨hsp, hst⟩ := h
  subst hsp
  subst hst
  refine ⟨rfl, hc, rfl, fun i => ?_⟩
  exact sameButUse_trans
    (copySegment_table_sameButUse PageSize NumPhysPages file noffH.code
      _ _ i)
    (copySegment_table_sameButUse PageSize NumPhysPages file noffH.initData
      _ _ i)

lemma fromParent_elim {PageSize NumPhysPages npp pb : Nat}
    {st st2 : MachineState} {sp : AddrSpace}
    (h : fromParent PageSize NumPhysPages npp pb st = some (sp, st2)) :
    sp.numPages = npp ∧
    st.totalPagesCount + sp.numPages ≤ NumPhysPages ∧
    st2.totalPagesCount = st.totalPagesCount + sp.numPages ∧
    sp.pageTable = mkPageTable st.totalPagesCount sp.numPages := by
  simp only [fromParent] at h
  split_ifs at h with hnp hc
  simp only [Option.some_inj, Prod.mk.injEq] at h
  obtain ⟨hsp, hst⟩ := h
  subst hsp
  subst hst
  exact ⟨rfl, hc, rfl, rfl⟩

lemma mkPageTable_lt {c numPages i : Nat} (hi : i < numPages) :
    mkPageTable c numPages i =
      { virtualPage := i, physicalPage := i + c, valid := true,
        use := false, dirty := false, readOnly := false } := by
  simp [mkPageTable, hi]

/-- C5: both constructors populate entry i, for i below numPages, with
virtual page i, physical page i + c (c the global counter before the
construction), valid true and use, dirty, readOnly false, then advance the
counter by numPages; hence the physical pages of one table are pairwise
distinct, contiguous, and lie below NumPhysPages.  The use bit is stated of
the populated table (mkPageTable, the loop of lines 94-103 and 170-179):
during the later segment copy-in of the image constructor, Translate sets
use on the entries it consults, so the final table is stated to agree on
every field except possibly use. -/
theorem C5_construction_populates_pagetable (PageSize NumPhysPages
    UserStackSize : Nat) (noffH : NoffHeader) (file : Nat → Nat)
    (st st2 st3 : MachineState) (sp sq : AddrSpace) (npp pb : Nat) :
    (fromImage PageSize NumPhysPages UserStackSize noffH file st
        = some (sp, st2) →
      st2.totalPagesCount = st.totalPagesCount + sp.numPages ∧
      (∀ i, i < sp.numPages →
        mkPageTable st.totalPagesCount sp.numPages i =
          { virtualPage := i, physicalPage := i + st.totalPagesCount,
            valid := true, use := false, dirty := false,
            readOnly := false }) ∧
      (∀ i, i < sp.numPages →
        (sp.pageTable i).virtualPage = i ∧
        (sp.pageTable i).physicalPage = i + st.totalPagesCount ∧
        (sp.pageTable i).valid = true ∧
        (sp.pageTable i).dirty = false ∧
        (sp.pageTable i).readOnly = false) ∧
      (∀ i j, i < sp.numPages → j < sp.numPages → i ≠ j →
        (sp.pageTable i).physicalPage ≠ (sp.pageTable j).physicalPage) ∧
      (∀ i, i + 1 < sp.numPages →
        (sp.pageTable (i + 1)).physicalPage
          = (sp.pageTable i).physicalPage + 1) ∧
      (∀ i, i < sp.numPages →
        (sp.pageTable i).physicalPage < NumPhysPages)) ∧
    (fromParent PageSize NumPhysPages npp pb st = some (sq, st3) →
      st3.totalPagesCount = st.totalPagesCount + sq.numPages ∧
      (∀ i, i < sq.numPages →
        sq.pageTable i =
          { virtualPage := i, physicalPage := i + st.totalPagesCount,
            valid := true, use := false, dirty := false,
            readOnly := false }) ∧
      (∀ i j, i < sq.numPages → j < sq.numPages → i ≠ j →
        (sq.pageTable i).physicalPage ≠ (sq.pageTable j).physicalPage) ∧
      (∀ i, i + 1 < sq.numPages →
        (sq.pageTable (i + 1)).physicalPage
          = (sq.pageTable i).physicalPage + 1) ∧
      (∀ i, i < sq.numPages →
        (sq.pageTable i).physicalPage < NumPhysPages)) := by
  constructor
  · intro h
    obtain ⟨hn, hb, hcnt, hsame⟩ := fromImage_elim h
    have hfield : ∀ i, i < sp.numPages →
        (sp.pageTable i).virtualPage = i ∧
        (sp.pageTable i).physicalPage = i + st.totalPagesCount ∧
        (sp.pageTable i).valid = true ∧
        (sp.pageTable i).dirty = false ∧
        (sp.pageTable i).readOnly = false := by
      intro i hi
      have hs := hsame i
      rw [mkPageTable_lt hi] at hs
      exact hs
    refine ⟨hcnt, fun i hi => mkPageTable_lt hi, hfield, ?_, ?_, ?_⟩
    · intro i j hi hj hne
      rw [(hfield i hi).2.1, (hfield j hj).2.1]
      omega
    · intro i hi
      rw [(hfield _ hi).2.1, (hfield i (by omega)).2.1]
      omega
    · intro i hi
      rw [(hfield i hi).2.1]
      omega
  · intro h
    obtain ⟨hn, hb, hcnt, htbl⟩ := fromParent_elim h
    have hfield : ∀ i, i < sq.numPages →
        sq.pageTable i =
          { virtualPage := i, physicalPage := i + st.totalPagesCount,
            valid := true, use := false, dirty := false,
            readOnly := false } := by
      intro i hi
      rw [htbl]
      exact mkPageTable_lt hi
    have hphys : ∀ i, i < sq.numPages →
        (sq.pageTable i).physicalPage = i + st.totalPagesCount := by
      intro i hi
      rw [hfield i hi]
    refine ⟨hcnt, hfield, ?_, ?_, ?_⟩
    · intro i j hi hj hne
      rw [hphys i hi, hphys j hj]
      omega
    · intro i hi
      rw [hphys _ hi, hphys i (by omega)]
      omega
    · intro i hi
      rw [hphys i hi]
      omega

/-- C5 witness: with 9 frames already committed, a 3-page image receives
physical frames 9, 10 and 11 and the counter becomes 12; a 1-page fork from
the same state moves the counter from 9 to 10 while receiving frame 9. -/
theorem C5_construction_populates_pagetable_witness :
    (12 : Nat) = 9 + 3 ∧
    (mkPageTable 9 3 0).physicalPage = 0 + 9 ∧
    (mkPageTable 9 3 1).physicalPage = 1 + 9 ∧
    (mkPageTable 9 3 2).physicalPage = 2 + 9 ∧
    (10 : Nat) = 9 + 1 := by
  have h := C5_construction_populates_pagetable 128 32 384
    ⟨NOFFMAGIC, ⟨0, 0, 0⟩, ⟨0, 0, 0⟩, ⟨0, 0, 0⟩⟩ (fun _ => 0)
    ⟨9, fun _ => 7⟩ ⟨12, bzero (fun _ => 7) 1536⟩
    ⟨10, copyBytes (fun _ => 7) 0 1152 128⟩
    ⟨3, mkPageTable 9 3⟩ ⟨1, mkPageTable 9 1⟩ 1 0
  have hi := h.1 rfl
  have hp := h.2 rfl
  exact ⟨hi.1, (hi.2.2.1 0 (by decide)).2.1, (hi.2.2.1 1 (by decide)).2.1,
    (hi.2.2.1 2 (by decide)).2.1, hp.1⟩

lemma le_divRoundUp_mul (n s : Nat) (hs : 0 < s) : n ≤ divRoundUp n s * s := by
  unfold divRoundUp
  by_cases h : n % s = 0
  · simp [h]
    exact (Nat.div_mul_cancel (Nat.dvd_of_mod_eq_zero h)).ge
  · simp [Nat.pos_of_ne_zero h]
    have h3 : n ≤ s * (n / s) + s := by
      have h1 := Nat.div_add_mod n s
      have h2 := Nat.mod_lt n hs
      linarith
    calc n ≤ s * (n / s) + s := h3
      _ = (n / s + 1) * s := by ring

lemma divRoundUp_min (n s k : Nat) (hs : 0 < s) (h : n ≤ k * s) :
    divRoundUp n s ≤ k := by
  unfold divRoundUp
  by_cases hm : n % s = 0
  · simp [hm]
    have he : n / s * s = n := Nat.div_mul_cancel (Nat.dvd_of_mod_eq_zero hm)
    have h2 : n / s * s ≤ k * s := by rw [he]; exact h
    exact Nat.le_of_mul_le_mul_right h2 hs
  · simp [Nat.pos_of_ne_zero hm]
    have hlt : n / s * s < n := by
      have h1 := Nat.div_add_mod n s
      have h2 := Nat.pos_of_ne_zero hm
      have h4 : n / s * s = s * (n / s) := Nat.mul_comm _ _
      linarith
    have h5 : n / s * s < k * s := lt_of_lt_of_le hlt h
    have h6 : n / s < k := lt_of_mul_lt_mul_right h5 (Nat.zero_le s)
    omega

/-- C6: the number of page-table entries created by construct-from-image is
the ceiling of (code size + initialized-data size + uninitialized-data size
+ stack reservation) over PageSize: it equals divRoundUp of that total, the
total fits in numPages pages, and numPages is the least such page count. -/
theorem C6_numPages_is_ceiling (PageSize NumPhysPages UserStackSize : Nat)
    (noffH : NoffHeader) (file : Nat → Nat) (st st2 : MachineState)
    (sp : AddrSpace) (hPS : 0 < PageSize)
    (h : fromImage PageSize NumPhysPages UserStackSize noffH file st
      = some (sp, st2)) :
    sp.numPages = divRoundUp (noffH.code.size + noffH.initData.size
        + noffH.uninitData.size + UserStackSize) PageSize ∧
    noffH.code.size + noffH.initData.size + noffH.uninitData.size
        + UserStackSize ≤ sp.numPages * PageSize ∧
    ∀ k, noffH.code.size + noffH.initData.size + noffH.uninitData.size
        + UserStackSize ≤ k * PageSize → sp.numPages ≤ k := by
  obtain ⟨hn, _, _, _⟩ := fromImage_elim h
  refine ⟨hn, ?_, ?_⟩
  · rw [hn]
    exact le_divRoundUp_mul _ _ hPS
  · intro k hk
    rw [hn]
    exact divRoundUp_min _ _ k hPS hk

/-- C6 witness: an image with a 128-byte code segment, page size 128 and
stack reservation 1024 yields numPages = 9. -/
theorem C6_numPages_is_ceiling_witness :
    (9 : Nat) = divRoundUp (128 + 0 + 0 + 1024) 128 ∧
    128 + 0 + 0 + 1024 ≤ 9 * 128 := by
  have h := C6_numPages_is_ceiling 128 32 1024
    ⟨NOFFMAGIC, ⟨128, 0, 40⟩, ⟨0, 0, 0⟩, ⟨0, 0, 0⟩⟩ (fun _ => 0)
    ⟨0, fun _ => 7⟩
    ⟨9, readAt (bzero (fun _ => 7) 1152) (fun _ => 0) 0 128 40⟩
    ⟨9, Function.update (mkPageTable 0 9) 0 ⟨0, 0, true, true, false, false⟩⟩
    (by decide) rfl
  exact ⟨h.1, h.2.1⟩

/-- C9: InitRegisters zeroes the register file, then sets the program
counter register to 0, the next-program-counter register to 4 and the stack
register to numPages * PageSize - 16 (as a signed register value), so with
distinct in-range register indices every other register holds 0. -/
theorem C9_init_registers (PageSize NumTotalRegs PCReg NextPCReg StackReg
    numPages : Nat) (regs : Nat → Int)
    (hPC : PCReg < NumTotalRegs) (hNPC : NextPCReg < NumTotalRegs)
    (hSR : StackReg < NumTotalRegs)
    (h1 : PCReg ≠ NextPCReg) (h2 : PCReg ≠ StackReg)
    (h3 : NextPCReg ≠ StackReg) :
    InitRegisters PageSize NumTotalRegs PCReg NextPCReg StackReg numPages
        regs PCReg = 0 ∧
    InitRegisters PageSize NumTotalRegs PCReg NextPCReg StackReg numPages
        regs NextPCReg = 4 ∧
    InitRegisters PageSize NumTotalRegs PCReg NextPCReg StackReg numPages
        regs StackReg = (numPages : Int) * (PageSize : Int) - 16 ∧
    (∀ r, r < NumTotalRegs → r ≠ PCReg → r ≠ NextPCReg → r ≠ StackReg →
      InitRegisters PageSize NumTotalRegs PCReg NextPCReg StackReg numPages
        regs r = 0) := by
  refine ⟨?_, ?_, ?_, ?_⟩
  · simp [InitRegisters, Function.update_noteq h2, Function.update_noteq h1,
      Function.update_same]
  · simp [InitRegisters, Function.update_noteq h3, Function.update_same]
  · simp [InitRegisters, Function.update_same]
  · intro r hr hrp hrn hrs
    simp [InitRegisters, Function.update_noteq hrs, Function.update_noteq hrn,
      Function.update_noteq hrp, hr]

/-- C9 witness: for numPages = 9 and page size 128 (register indices 34, 35
and 29 among 40 registers), the stack register receives 9 * 128 - 16 = 1136,
the program counter 0 and the next program counter 4. -/
theorem C9_init_registers_witness :
    InitRegisters 128 40 34 35 29 9 (fun _ => 7) 34 = 0 ∧
    InitRegisters 128 40 34 35 29 9 (fun _ => 7) 35 = 4 ∧
    InitRegisters 128 40 34 35 29 9 (fun _ => 7) 29 = 1136 := by
  have h := C9_init_registers 128 40 34 35 29 9 (fun _ => 7)
    (by decide) (by decide) (by decide) (by decide) (by decide) (by decide)
  refine ⟨h.1, h.2.1, ?_⟩
  rw [h.2.2.1]
  norm_num

/-- C1 fails on the code: forking a one-page parent that sits at physical
frame 1 (page size 128, 32 frames, counter 2, parent bytes all 5) copies a
single byte — the loop bound is computed as parentStartPhysPage + numPages *
PageSize = 129 instead of (parentStartPhysPage + numPages) * PageSize = 256
— so the child byte at offset 64 of its fresh frame is still 0 after the
fork while the parent byte at the same offset is 5; only the first byte of
the frame got copied. -/
theorem C1_fork_copy_truncated :
    ((fromParent 128 32 1 1
        { totalPagesCount := 2,
          mainMemory := fun a => if 128 ≤ a ∧ a < 256 then 5 else 0 }).map
      (fun r => (r.2.mainMemory 320, r.2.mainMemory 256,
        (fun a => if 128 ≤ a ∧ a < 256 then (5 : Nat) else 0) 192,
        r.1.numPages)))
      = some (0, 5, 5, 1) := by
  rfl

/-- C2 fails on the code: constructing a second image (all segment sizes 0,
stack reservation 128, so one page) while the counter is 9 zero-fills bytes
[0, 10 * 128) — the zero length is the post-increment counter times PageSize
and the fill starts at address 0 — so byte 0, lying in a frame committed by
the first Address Space and holding 7, is zeroed instead of left unchanged;
byte 1200 inside the newly committed range is zeroed and byte 1300 beyond
the fill is untouched. -/
theorem C2_zero_fill_clobbers_prior_frames :
    ((fromImage 128 32 128
        { noffMagic := NOFFMAGIC, code := ⟨0, 0, 0⟩, initData := ⟨0, 0, 0⟩,
          uninitData := ⟨0, 0, 0⟩ }
        (fun _ => 0)
        { totalPagesCount := 9, mainMemory := fun _ => 7 }).map
      (fun r => (r.2.mainMemory 0, r.2.mainMemory 1200,
        r.2.mainMemory 1300)))
      = some (0, 0, 7) := by
  rfl

end Nachos
